import Mathlib

/-! # participle: parser options (`options.go`)

A shallow embedding of the option constructors of `options.go`
(`Lexer`, `UseLookahead`, `CaseInsensitive`, `UseInterface`, `AllowTrailing`)
together with the small part of Go's `reflect` package that `UseInterface`
observes, followed by theorems about them.

Conventions of the embedding:

* a Go `func(p *Parser) error` is a function from the pointee before the call to
  an `Outcome`: the pointee after the call with the returned `error`, or a panic;
* a Go `map[K]V` is observed only through lookup and changed only through
  assignment, so it is a function `K → Option V` (`none`: key absent);
* `interface{}` is `Option Iface`: `none` is the nil interface value.
-/

namespace participle

/-! ## Go maps -/

/-- A Go `map[K]V`, as the partial function it denotes. -/
def GoMap (κ ν : Type) : Type := κ → Option ν

namespace GoMap

variable {κ ν : Type}

/-- The map `map[K]V{}`. -/
def empty : GoMap κ ν := fun _ => none

/-- The two-result lookup `v, ok := m[k]`. -/
def lookup (m : GoMap κ ν) (k : κ) : Option ν := m k

/-- The assignment `m[k] = v`. -/
def set [DecidableEq κ] (m : GoMap κ ν) (k : κ) (v : ν) : GoMap κ ν :=
  fun k' => if k' = k then some v else m k'

/-- The one-result lookup `m[k]` on a `map[K]bool`: the zero value `false` when absent. -/
def index (m : GoMap κ Bool) (k : κ) : Bool := (m k).getD false

end GoMap

/-! ## The part of `reflect` used by `UseInterface` -/

namespace reflect

/-- The enumeration `reflect.Kind`. -/
inductive Kind
  | Invalid | Bool | Int | Int8 | Int16 | Int32 | Int64
  | Uint | Uint8 | Uint16 | Uint32 | Uint64 | Uintptr
  | Float32 | Float64 | Complex64 | Complex128
  | Array | Chan | Func | Interface | Map | Pointer | Slice | String | Struct
  | UnsafePointer
  deriving DecidableEq, Repr

/-- The predeclared non-composite types of Go. -/
inductive Basic
  | bool | int | int8 | int16 | int32 | int64
  | uint | uint8 | uint16 | uint32 | uint64 | uintptr
  | float32 | float64 | complex64 | complex128 | string | unsafePointer
  deriving DecidableEq, Repr

/-- The kind of a predeclared non-composite type. -/
def Basic.Kind : Basic → Kind
  | .bool => .Bool | .int => .Int | .int8 => .Int8 | .int16 => .Int16
  | .int32 => .Int32 | .int64 => .Int64
  | .uint => .Uint | .uint8 => .Uint8 | .uint16 => .Uint16 | .uint32 => .Uint32
  | .uint64 => .Uint64 | .uintptr => .Uintptr
  | .float32 => .Float32 | .float64 => .Float64
  | .complex64 => .Complex64 | .complex128 => .Complex128
  | .string => .String | .unsafePointer => .UnsafePointer

mutual
/-- A Go type as `reflect.Type` identifies it. Two `reflect.Type` values are `==`
exactly when they denote the same type, which is equality of this syntax. -/
inductive GoType
  /-- A predeclared non-composite type. -/
  | basic (b : Basic)
  /-- A defined type `pkgPath.name` with its underlying type. -/
  | named (pkgPath name : String) (underlying : GoType)
  /-- The pointer type `*elem`. -/
  | pointer (elem : GoType)
  /-- The slice type `[]elem`. -/
  | slice (elem : GoType)
  /-- The array type `[len]elem`. -/
  | array (len : Nat) (elem : GoType)
  /-- The channel type `chan elem`. -/
  | chan (elem : GoType)
  /-- The map type `map[key]elem`. -/
  | map (key elem : GoType)
  /-- The function type `func(ins) (outs)`; when `variadic`, the last of `ins` is the
  slice type of the `...` parameter. -/
  | func (ins outs : GoTypes) (variadic : Bool)
  /-- An interface type literal, by the signatures of its method set. -/
  | interface (methods : List String)
  /-- A struct type literal, by its field types. -/
  | struct (fields : GoTypes)
  deriving DecidableEq
/-- A list of Go types (parameters, results, fields). -/
inductive GoTypes
  | nil
  | cons (head : GoType) (tail : GoTypes)
  deriving DecidableEq
end

/-- The list of types as a `List`. -/
def GoTypes.toList : GoTypes → List GoType
  | .nil => []
  | .cons t ts => t :: ts.toList

namespace GoType

/-- The method `Type.Kind()`. -/
def Kind : GoType → reflect.Kind
  | .basic b => b.Kind
  | .named _ _ u => u.Kind
  | .pointer _ => .Pointer
  | .slice _ => .Slice
  | .array _ _ => .Array
  | .chan _ => .Chan
  | .map _ _ => .Map
  | .func _ _ _ => .Func
  | .interface _ => .Interface
  | .struct _ => .Struct

/-- The parameter types of a type of kind `Func` (none for the other kinds). -/
def ins : GoType → List GoType
  | .named _ _ u => u.ins
  | .func i _ _ => i.toList
  | _ => []

/-- The result types of a type of kind `Func` (none for the other kinds). -/
def outs : GoType → List GoType
  | .named _ _ u => u.outs
  | .func _ o _ => o.toList
  | _ => []

/-- The method `Type.NumIn()`. Go panics when the kind is not `Func`; `UseInterface`
calls it only after checking the kind. -/
def NumIn (t : GoType) : Nat := t.ins.length

/-- The method `Type.In(i)`; `none` where Go panics (index out of range). -/
def In (t : GoType) (i : Nat) : Option GoType := t.ins.get? i

/-- The method `Type.NumOut()`. Go panics when the kind is not `Func`; `UseInterface`
calls it only after checking the kind. -/
def NumOut (t : GoType) : Nat := t.outs.length

/-- The method `Type.Out(i)`; `none` where Go panics (index out of range). -/
def Out (t : GoType) (i : Nat) : Option GoType := t.outs.get? i

end GoType

/-- A `reflect.Value`: the zero Value, or a type with the data word of the value. -/
inductive Value
  | zero
  | mk (typ : GoType) (word : Nat)
  deriving DecidableEq

end reflect

open reflect

/-- A non-nil `interface{}` value: its dynamic type and its data word (for a
function value, the code pointer; `0` is a nil func). -/
structure Iface where
  typ : GoType
  word : Nat
  deriving DecidableEq

/-- The function `reflect.ValueOf(i interface{})`: the zero Value for nil. -/
def reflect.ValueOf : Option Iface → Value
  | none => .zero
  | some i => .mk i.typ i.word

/-- The method `Value.Type()`: panics on the zero Value. -/
def reflect.Value.Type : Value → Except String GoType
  | .zero => .error "reflect: call of reflect.Value.Type on zero Value"
  | .mk t _ => .ok t

/-- The predeclared type `error`. -/
def GoType.error : GoType := .named "" "error" (.interface ["Error() string"])

/-- The defined type `lexer.PeekingLexer`. It is declared in the package `lexer`;
its fields are not inspected here and only the identity of the type matters. -/
def lexer.PeekingLexer : GoType :=
  .named "github.com/alecthomas/participle/v2/lexer" "PeekingLexer" (.struct .nil)

/-- An `error` built by `fmt.Errorf(format, args...)`, kept unrendered. -/
structure GoError where
  format : String
  args : List GoType
  deriving DecidableEq

/-- The function `fmt.Errorf`. -/
def fmt.Errorf (format : String) (args : List GoType) : GoError := ⟨format, args⟩

/-! ## `Parser`, `Option` and the option constructors -/

/-- Modelled from the spec: the declaration of the struct `Parser` is not in
`options.go`. These are the four fields the options assign, with the types the
assignments give them; `Δ` is the interface type `lexer.Definition`. Both maps are
allocated (a parser comes from the constructor, which populates its mappings before
compilation). -/
structure Parser (Δ : Type) where
  lex : Δ
  useLookahead : Int
  caseInsensitive : GoMap String Bool
  interfaceParsers : GoMap GoType Value

/-- How a call `opt(p)` ends: it returns an `error` (`none` is nil), or it panics.
In both cases `state` is what `*p` holds at that point. -/
inductive Outcome (σ : Type)
  | returned (state : σ) (err : Option GoError)
  | panicked (state : σ) (msg : String)

/-- The Go type `Option`, `func(p *Parser) error`, for a non-nil `p`. -/
def ParserOption (Δ : Type) : Type := Parser Δ → Outcome (Parser Δ)

variable {Δ : Type}

/-- Lexer is an Option that sets the lexer to use with the given grammar. -/
def Lexer (d : Δ) : ParserOption Δ := fun p =>
  .returned { p with lex := d } none

/-- UseLookahead allows branch lookahead up to "n" tokens. -/
def UseLookahead (n : Int) : ParserOption Δ := fun p =>
  .returned { p with useLookahead := n } none

/-- CaseInsensitive allows the specified token types to be matched
case-insensitively: the loop `for _, token := range tokens` over the assignment
`p.caseInsensitive[token] = true`. -/
def CaseInsensitive (tokens : List String) : ParserOption Δ := fun p =>
  .returned
    (tokens.foldl
      (fun q token => { q with caseInsensitive := q.caseInsensitive.set token true }) p)
    none

/-- The value `reflect.TypeOf((*error)(nil)).Elem()`. -/
def errType : GoType := GoType.error

/-- The value `reflect.TypeOf((*lexer.PeekingLexer)(nil))`. -/
def lexType : GoType := .pointer lexer.PeekingLexer

/-- UseInterface registers `parseFn` as the custom parser of its first result type. -/
def UseInterface (parseFn : Option Iface) : ParserOption Δ := fun parser =>
  let fv := reflect.ValueOf parseFn
  match fv.Type with
  | .error msg => .panicked parser msg
  | .ok ft =>
    if ft.Kind ≠ .Func then
      .returned parser (some (fmt.Errorf "parseFn must be a function (got %s)" [ft]))
    else if ft.NumIn ≠ 1 ∨ ft.In 0 ≠ some lexType then
      .returned parser
        (some (fmt.Errorf "parseFn must only take one arg of type %s" [lexType]))
    else if ft.NumOut ≠ 2 ∨ (ft.Out 0).map GoType.Kind ≠ some .Interface
        ∨ ft.Out 1 ≠ some errType then
      .returned parser
        (some (fmt.Errorf
          "parseFn must return two values, the interface to produce & an error" []))
    else
      match ft.Out 0 with
      | none => .panicked parser "reflect: Func index out of bounds"
      | some key =>
        .returned
          { parser with interfaceParsers := parser.interfaceParsers.set key fv } none

/-- Modelled from the spec: the declaration of the struct `parseContext` is not in
`options.go`. It has the trailing-tolerance flag that `AllowTrailing` assigns; `ρ`
stands for all its other fields (the token cursor among them). -/
structure parseContext (ρ : Type) where
  allowTrailing : Bool
  rest : ρ

/-- The Go type `ParseOption`, `func(p *parseContext)`, for a non-nil `p`. -/
def ParseOption (ρ : Type) : Type := parseContext ρ → parseContext ρ

/-- AllowTrailing tokens without erroring. -/
def AllowTrailing {ρ : Type} (ok : Bool) : ParseOption ρ := fun p =>
  { p with allowTrailing := ok }

/-- The pointee `*p` when the call ends. -/
def Outcome.state {σ : Type} : Outcome σ → σ
  | .returned s _ => s
  | .panicked s _ => s

/-! ## The parse entry point and trailing input -/

namespace engine

/-- Modelled from the spec: the token type is declared outside `options.go`. A token
is a type tag, the literal text matched and a source position (§3). -/
structure Token where
  type : String
  value : String
  offset : Nat
  deriving DecidableEq

/-- Modelled from the spec: the grammar node model is not in `options.go`. These are
the variants of §3 that match without capturing: a literal, a sequence (of two nodes;
longer sequences nest), an alternation (of two branches) and an optional node. -/
inductive Node
  | literal (text : String)
  | sequence (first second : Node)
  | alternation (first second : Node)
  | optional (child : Node)

/-- Modelled from the spec: the parser engine is not in `options.go`. The algorithm of
§4.2 on a cursor given as the list of tokens not yet consumed: `none` is failure
(the cursor is then the one at entry), `some rest` is success with the cursor
advanced to `rest`. -/
def Node.run : Node → List Token → Option (List Token)
  | .literal text, ts =>
    match ts with
    | [] => none
    | t :: rest => if t.value = text then some rest else none
  | .sequence a b, ts =>
    match a.run ts with
    | none => none
    | some rest => b.run rest
  | .alternation a b, ts =>
    match a.run ts with
    | some rest => some rest
    | none => b.run ts
  | .optional a, ts =>
    match a.run ts with
    | some rest => some rest
    | none => some ts

/-- Modelled from the spec: the error kinds of a parse (§7) that the entry point can
report without custom handlers. -/
inductive ParseError
  | StructuralMismatch
  | UnexpectedTrailing (token : Token)
  deriving DecidableEq

/-- Modelled from the spec: the parse entry point is not in `options.go`. The context
starts with trailing tolerance off (the default) and the cursor at the first token;
the parse options are applied in order; then the entry-point production is matched,
and "if unconsumed tokens remain and trailing tolerance is not enabled, this is a
failure (`ErrUnexpectedTrailing`) at the position of the first unconsumed token"
(§4.2). -/
def parse (root : Node) (tokens : List Token)
    (options : List (ParseOption (List Token))) : Except ParseError Unit :=
  let ctx := options.foldl (fun c o => o c) (⟨false, tokens⟩ : parseContext (List Token))
  match root.run ctx.rest with
  | none => .error .StructuralMismatch
  | some [] => .ok ()
  | some (t :: _) =>
    if ctx.allowTrailing then .ok () else .error (.UnexpectedTrailing t)

/-- The grammar that matches exactly the tokens `A B`. -/
def grammarAB : Node := .sequence (.literal "A") (.literal "B")

/-- The token stream of the input `A B EXTRA`. -/
def inputABExtra : List Token :=
  [⟨"Ident", "A", 0⟩, ⟨"Ident", "B", 2⟩, ⟨"Ident", "EXTRA", 4⟩]

end engine

/-! ## Sample values -/

/-- An interface type literal with one method. -/
def sampleExpr : GoType := .named "main" "Expr" (.interface ["expr()"])

/-- A function value of type `func(*lexer.PeekingLexer) (main.Expr, error)`. -/
def sampleParseFn : Iface :=
  ⟨.func (.cons lexType .nil) (.cons sampleExpr (.cons errType .nil)) false, 4096⟩

/-- The value `42` of type `int`, boxed in an `interface{}`. -/
def sampleInt : Iface := ⟨.basic .int, 42⟩

/-- A parser with lookahead 1, the token type `Keyword` marked case-insensitive and
a handler already registered for `main.Expr`. -/
def sampleParser : Parser Nat where
  lex := 0
  useLookahead := 1
  caseInsensitive := GoMap.set GoMap.empty "Keyword" true
  interfaceParsers := GoMap.set GoMap.empty sampleExpr (.mk (.basic .int) 1)

/-! ## The specification of an acceptable `parseFn` -/

/-- A function type that takes exactly one parameter, of type `*lexer.PeekingLexer`,
and returns exactly two results, the first of interface kind and the second exactly
the type `error`. -/
def IsInterfaceParseFn (t : GoType) : Prop :=
  t.Kind = .Func ∧ t.ins = [lexType] ∧ ∃ r, r.Kind = .Interface ∧ t.outs = [r, errType]

/-! ## Lemmas -/

theorem ins_check_iff (l : List GoType) (x : GoType) :
    ¬ (l.length ≠ 1 ∨ l.get? 0 ≠ some x) ↔ l = [x] := by
  rcases l with _ | ⟨a, _ | ⟨b, t⟩⟩ <;> simp

theorem outs_check_iff (l : List GoType) (e : GoType) :
    ¬ (l.length ≠ 2 ∨ (l.get? 0).map GoType.Kind ≠ some .Interface ∨ l.get? 1 ≠ some e)
      ↔ ∃ r, r.Kind = .Interface ∧ l = [r, e] := by
  rcases l with _ | ⟨a, _ | ⟨b, _ | ⟨c, t⟩⟩⟩ <;> simp
  constructor
  · rintro ⟨ha, hb⟩
    exact ⟨a, ha, rfl, hb⟩
  · rintro ⟨r, hr, rfl, hb⟩
    exact ⟨hr, hb⟩

/-- What `UseInterface` does with an acceptable function. -/
theorem useInterface_of_accept (v : Iface) (p : Parser Δ) (r : GoType)
    (hk : v.typ.Kind = .Func) (hi : v.typ.ins = [lexType]) (hr : r.Kind = .Interface)
    (ho : v.typ.outs = [r, errType]) :
    UseInterface (some v) p =
      .returned { p with interfaceParsers := p.interfaceParsers.set r (.mk v.typ v.word) }
        none := by
  simp [UseInterface, reflect.ValueOf, reflect.Value.Type, GoType.NumIn, GoType.In,
    GoType.NumOut, GoType.Out, hk, hi, ho, hr]

/-- What `UseInterface` does with any other non-nil value. -/
theorem useInterface_of_reject (v : Iface) (p : Parser Δ) (h : ¬ IsInterfaceParseFn v.typ) :
    ∃ e, UseInterface (some v) p = .returned p (some e) := by
  unfold IsInterfaceParseFn at h
  simp only [UseInterface, reflect.ValueOf, reflect.Value.Type]
  by_cases hk : v.typ.Kind = .Func
  · by_cases hi : v.typ.NumIn ≠ 1 ∨ v.typ.In 0 ≠ some lexType
    · exact ⟨_, by simp only [hk, ne_eq, not_true_eq_false, if_false, hi, if_true]; rfl⟩
    · by_cases ho : v.typ.NumOut ≠ 2 ∨ (v.typ.Out 0).map GoType.Kind ≠ some .Interface
          ∨ v.typ.Out 1 ≠ some errType
      · exact ⟨_, by simp only [hk, ne_eq, not_true_eq_false, if_false, hi, ho, if_true]; rfl⟩
      · exfalso
        exact h ⟨hk, (ins_check_iff _ _).1 hi, (outs_check_iff _ _).1 ho⟩
  · exact ⟨_, by simp only [ne_eq, hk, not_false_eq_true, if_true]; rfl⟩

/-- The state after the loop of `CaseInsensitive`. -/
theorem caseInsensitive_foldl (tokens : List String) (p : Parser Δ) :
    tokens.foldl
        (fun q token => { q with caseInsensitive := q.caseInsensitive.set token true }) p
      = { p with caseInsensitive :=
            fun k => if k ∈ tokens then some true else p.caseInsensitive k } := by
  induction tokens generalizing p with
  | nil => simp
  | cons t ts ih =>
    rw [List.foldl_cons, ih]
    congr 1
    funext k
    by_cases hk : k ∈ ts
    · simp [hk]
    · by_cases hkt : k = t <;> simp [hk, hkt, GoMap.set]

/-! ## `UseInterface` -/

/-- C1: for a non-nil `parseFn` (the value `some v`) and every parser, applying
`UseInterface(parseFn)` returns no error if and only if the type of `parseFn` is a
function type with exactly one parameter, of type `*lexer.PeekingLexer`, and exactly
two results, the first of interface kind and the second exactly `error`; in every other
case it returns a non-nil error. -/
theorem useInterface_accepts_iff (v : Iface) (p : Parser Δ) :
    ((∃ p', UseInterface (some v) p = .returned p' none) ↔ IsInterfaceParseFn v.typ) ∧
    (¬ IsInterfaceParseFn v.typ →
      ∃ p' e, UseInterface (some v) p = .returned p' (some e)) := by
  refine ⟨⟨?_, ?_⟩, ?_⟩
  · rintro ⟨p', hp'⟩
    by_contra hn
    obtain ⟨e, he⟩ := useInterface_of_reject v p hn
    rw [he] at hp'
    cases hp'
  · rintro ⟨hk, hi, r, hr, ho⟩
    exact ⟨_, useInterface_of_accept v p r hk hi hr ho⟩
  · intro hn
    obtain ⟨e, he⟩ := useInterface_of_reject v p hn
    exact ⟨p, e, he⟩

/-- C2: when `UseInterface(parseFn)` is accepted (applied to `p` it returns no error,
leaving `p'`), the registry of `p'` maps the first result type of the function to
exactly the `reflect.Value` of `parseFn`, whatever was registered for that type before,
and the entry for every other type is the one of `p`. -/
theorem useInterface_registers (parseFn : Option Iface) (p p' : Parser Δ)
    (h : UseInterface parseFn p = .returned p' none) :
    ∃ ft key, (reflect.ValueOf parseFn).Type = .ok ft ∧ ft.Out 0 = some key ∧
      p'.interfaceParsers.lookup key = some (reflect.ValueOf parseFn) ∧
      ∀ t, t ≠ key → p'.interfaceParsers.lookup t = p.interfaceParsers.lookup t := by
  cases parseFn with
  | none => simp [UseInterface, reflect.ValueOf, reflect.Value.Type] at h
  | some v =>
    by_cases ha : IsInterfaceParseFn v.typ
    · obtain ⟨hk, hi, r, hr, ho⟩ := ha
      rw [useInterface_of_accept v p r hk hi hr ho] at h
      cases h
      refine ⟨v.typ, r, rfl, ?_, ?_, ?_⟩
      · simp [GoType.Out, ho]
      · simp [GoMap.lookup, GoMap.set, reflect.ValueOf]
      · intro t ht
        simp [GoMap.lookup, GoMap.set, ht]
    · obtain ⟨e, he⟩ := useInterface_of_reject v p ha
      rw [he] at h
      cases h

/-- Witness of C2: the sample function replaces the handler registered for `main.Expr`
in the sample parser. -/
theorem useInterface_registers_witness :
    UseInterface (some sampleParseFn) sampleParser
        = .returned { sampleParser with
            interfaceParsers :=
              sampleParser.interfaceParsers.set sampleExpr (.mk sampleParseFn.typ 4096) }
            none ∧
      ∃ ft key, (reflect.ValueOf (some sampleParseFn)).Type = .ok ft ∧
        ft.Out 0 = some key ∧
        GoMap.lookup
            (sampleParser.interfaceParsers.set sampleExpr (.mk sampleParseFn.typ 4096)) key
          = some (reflect.ValueOf (some sampleParseFn)) ∧
        ∀ t, t ≠ key →
          GoMap.lookup
              (sampleParser.interfaceParsers.set sampleExpr (.mk sampleParseFn.typ 4096)) t
            = sampleParser.interfaceParsers.lookup t :=
  ⟨rfl, useInterface_registers (some sampleParseFn) sampleParser _ rfl⟩

/-- C3: for every parser state and every option built by `Lexer`, `UseLookahead`,
`CaseInsensitive` or `UseInterface`, if applying the option returns an error then the
parser state (all four fields) is exactly what it was before. -/
theorem option_error_keeps_state (o : ParserOption Δ)
    (ho : (∃ d, o = Lexer d) ∨ (∃ n, o = UseLookahead n) ∨
      (∃ tokens, o = CaseInsensitive tokens) ∨ (∃ parseFn, o = UseInterface parseFn))
    (p p' : Parser Δ) (e : GoError) (h : o p = .returned p' (some e)) : p' = p := by
  rcases ho with ⟨d, rfl⟩ | ⟨n, rfl⟩ | ⟨tokens, rfl⟩ | ⟨parseFn, rfl⟩
  · simp [Lexer] at h
  · simp [UseLookahead] at h
  · simp [CaseInsensitive] at h
  · cases parseFn with
    | none => simp [UseInterface, reflect.ValueOf, reflect.Value.Type] at h
    | some v =>
      by_cases ha : IsInterfaceParseFn v.typ
      · obtain ⟨hk, hi, r, hr, hout⟩ := ha
        rw [useInterface_of_accept v p r hk hi hr hout] at h
        cases h
      · obtain ⟨e', he'⟩ := useInterface_of_reject v p ha
        rw [he'] at h
        cases h
        rfl

/-- Witness of C3: `UseInterface(42)` on the sample parser returns the error "parseFn
must be a function" and the parser is as before. -/
theorem option_error_keeps_state_witness :
    ((∃ d, (UseInterface (some sampleInt) : ParserOption Nat) = Lexer d) ∨
      (∃ n, (UseInterface (some sampleInt) : ParserOption Nat) = UseLookahead n) ∨
      (∃ tokens, (UseInterface (some sampleInt) : ParserOption Nat) = CaseInsensitive tokens) ∨
      (∃ parseFn, (UseInterface (some sampleInt) : ParserOption Nat) = UseInterface parseFn)) ∧
    UseInterface (some sampleInt) sampleParser
      = .returned sampleParser
          (some (fmt.Errorf "parseFn must be a function (got %s)" [.basic .int])) ∧
    sampleParser = sampleParser :=
  ⟨Or.inr (Or.inr (Or.inr ⟨_, rfl⟩)), rfl,
    option_error_keeps_state (UseInterface (some sampleInt))
      (Or.inr (Or.inr (Or.inr ⟨_, rfl⟩))) sampleParser sampleParser _ rfl⟩

/-! ## `CaseInsensitive` -/

/-- C4: for every parser and every list of token type names, `CaseInsensitive(tokens...)`
returns no error and afterwards a token type is marked case-insensitive if and only if
it was marked before or it occurs in `tokens`; in particular every listed name is
marked, no previously marked name is unmarked, and with an empty list the set is
unchanged. -/
theorem caseInsensitive_marks (tokens : List String) (p : Parser Δ) :
    ∃ p', CaseInsensitive tokens p = .returned p' none ∧
      (∀ t, p'.caseInsensitive.index t = true ↔
        (p.caseInsensitive.index t = true ∨ t ∈ tokens)) ∧
      (∀ t, t ∈ tokens → p'.caseInsensitive.index t = true) ∧
      (∀ t, p.caseInsensitive.index t = true → p'.caseInsensitive.index t = true) ∧
      (tokens = [] → p'.caseInsensitive = p.caseInsensitive) := by
  have key : ∀ t, GoMap.index
      (fun k => if k ∈ tokens then some true else p.caseInsensitive k) t = true ↔
        (p.caseInsensitive.index t = true ∨ t ∈ tokens) := by
    intro t
    by_cases ht : t ∈ tokens <;> simp [GoMap.index, ht]
  refine ⟨_, by rw [CaseInsensitive, caseInsensitive_foldl], key, ?_, ?_, ?_⟩
  · intro t ht
    exact (key t).2 (Or.inr ht)
  · intro t ht
    exact (key t).2 (Or.inl ht)
  · rintro rfl
    funext k
    simp

/-- C10: the case-insensitive map after `CaseInsensitive(a...)` then
`CaseInsensitive(b...)` is the one after the opposite order and the one after the single
option on the concatenation of `a` and `b`; applying the same option twice gives the
map of applying it once. -/
theorem caseInsensitive_comm_idem (a b : List String) (p : Parser Δ) :
    (CaseInsensitive b (CaseInsensitive a p).state).state.caseInsensitive
        = (CaseInsensitive a (CaseInsensitive b p).state).state.caseInsensitive ∧
    (CaseInsensitive b (CaseInsensitive a p).state).state.caseInsensitive
        = (CaseInsensitive (a ++ b) p).state.caseInsensitive ∧
    (CaseInsensitive a (CaseInsensitive a p).state).state.caseInsensitive
        = (CaseInsensitive a p).state.caseInsensitive := by
  simp only [CaseInsensitive, Outcome.state, caseInsensitive_foldl]
  refine ⟨?_, ?_, ?_⟩ <;> funext k <;> by_cases ha : k ∈ a <;> by_cases hb : k ∈ b <;>
    simp [ha, hb]

/-! ## `AllowTrailing` -/

/-- C5: applying `AllowTrailing(ok)` sets the trailing-tolerance flag of the context to
exactly `ok` whatever it was (so the last `AllowTrailing` applied decides) and changes
nothing else in the context; `AllowTrailing(false)` on a context whose flag is off, the
default, leaves the context unchanged. -/
theorem allowTrailing_sets {ρ : Type} (ctx : parseContext ρ) (ok ok' : Bool) :
    (AllowTrailing ok ctx).allowTrailing = ok ∧
    (AllowTrailing ok ctx).rest = ctx.rest ∧
    AllowTrailing ok (AllowTrailing ok' ctx) = AllowTrailing ok ctx ∧
    (ctx.allowTrailing = false → AllowTrailing false ctx = ctx) := by
  refine ⟨rfl, rfl, rfl, ?_⟩
  intro h
  cases ctx
  simp_all [AllowTrailing]

/-! ## `Lexer`, `UseLookahead` and the frame of each option -/

/-- Counterexample to C6: `UseLookahead(-1)` applied to the sample parser does not
return an error. -/
theorem useLookahead_negative_no_error :
    ¬ ∃ p' e, UseLookahead (-1) sampleParser = .returned p' (some e) := by
  rintro ⟨p', e, h⟩
  simp [UseLookahead] at h

/-- C6 as amended: applying `UseLookahead(n)` with a negative depth `n` returns no
error and configures the parser with the lookahead depth `n`. -/
theorem useLookahead_negative_accepted (n : Int) (hn : n < 0) (p : Parser Δ) :
    UseLookahead n p = .returned { p with useLookahead := n } none ∧
      (UseLookahead n p).state.useLookahead < 0 :=
  ⟨rfl, hn⟩

/-- Witness of the amended C6 at the depth `-3`. -/
theorem useLookahead_negative_accepted_witness :
    (-3 : Int) < 0 ∧
      UseLookahead (-3) sampleParser
          = .returned { sampleParser with useLookahead := -3 } none ∧
      (UseLookahead (-3) sampleParser).state.useLookahead < 0 :=
  ⟨by decide, useLookahead_negative_accepted (-3) (by decide) sampleParser⟩

/-- C7: `Lexer(d)` sets the lexer to `d` and `UseLookahead(n)` sets the lookahead depth
to `n`, each returning no error and leaving the other three fields unchanged;
`CaseInsensitive` returns no error and changes at most the case-insensitive map; a
successful `UseInterface` changes at most the custom-parse registry. -/
theorem options_frame (d : Δ) (n : Int) (tokens : List String) (parseFn : Option Iface)
    (p p' : Parser Δ) (h : UseInterface parseFn p = .returned p' none) :
    (∃ q, Lexer d p = .returned q none ∧ q.lex = d ∧ q.useLookahead = p.useLookahead ∧
      q.caseInsensitive = p.caseInsensitive ∧ q.interfaceParsers = p.interfaceParsers) ∧
    (∃ q, UseLookahead n p = .returned q none ∧ q.lex = p.lex ∧ q.useLookahead = n ∧
      q.caseInsensitive = p.caseInsensitive ∧ q.interfaceParsers = p.interfaceParsers) ∧
    (∃ q, CaseInsensitive tokens p = .returned q none ∧ q.lex = p.lex ∧
      q.useLookahead = p.useLookahead ∧ q.interfaceParsers = p.interfaceParsers) ∧
    (p'.lex = p.lex ∧ p'.useLookahead = p.useLookahead ∧
      p'.caseInsensitive = p.caseInsensitive) := by
  refine ⟨⟨_, rfl, rfl, rfl, rfl, rfl⟩, ⟨_, rfl, rfl, rfl, rfl, rfl⟩,
    ⟨_, rfl, by rw [caseInsensitive_foldl], by rw [caseInsensitive_foldl],
      by rw [caseInsensitive_foldl]⟩, ?_⟩
  cases parseFn with
  | none => simp [UseInterface, reflect.ValueOf, reflect.Value.Type] at h
  | some v =>
    by_cases ha : IsInterfaceParseFn v.typ
    · obtain ⟨hk, hi, r, hr, hout⟩ := ha
      rw [useInterface_of_accept v p r hk hi hr hout] at h
      cases h
      exact ⟨rfl, rfl, rfl⟩
    · obtain ⟨e, he⟩ := useInterface_of_reject v p ha
      rw [he] at h
      cases h

/-- The sample parser after the sample function has been registered. -/
def sampleParserRegistered : Parser Nat :=
  { sampleParser with
    interfaceParsers :=
      sampleParser.interfaceParsers.set sampleExpr (.mk sampleParseFn.typ 4096) }

/-- Witness of C7 on the sample parser, with the sample function for `UseInterface`. -/
theorem options_frame_witness :
    UseInterface (some sampleParseFn) sampleParser = .returned sampleParserRegistered none ∧
    (∃ q, Lexer 5 sampleParser = .returned q none ∧ q.lex = 5 ∧
      q.useLookahead = sampleParser.useLookahead ∧
      q.caseInsensitive = sampleParser.caseInsensitive ∧
      q.interfaceParsers = sampleParser.interfaceParsers) ∧
    (∃ q, UseLookahead 3 sampleParser = .returned q none ∧ q.lex = sampleParser.lex ∧
      q.useLookahead = 3 ∧ q.caseInsensitive = sampleParser.caseInsensitive ∧
      q.interfaceParsers = sampleParser.interfaceParsers) ∧
    (∃ q, CaseInsensitive ["Ident", "String"] sampleParser = .returned q none ∧
      q.lex = sampleParser.lex ∧ q.useLookahead = sampleParser.useLookahead ∧
      q.interfaceParsers = sampleParser.interfaceParsers) ∧
    (sampleParserRegistered.lex = sampleParser.lex ∧
      sampleParserRegistered.useLookahead = sampleParser.useLookahead ∧
      sampleParserRegistered.caseInsensitive = sampleParser.caseInsensitive) :=
  ⟨rfl, options_frame 5 3 ["Ident", "String"] (some sampleParseFn) sampleParser
    sampleParserRegistered rfl⟩

/-- C9, the code at a nil `parseFn`: `reflect.ValueOf(nil)` is the zero Value and
`fv.Type()` panics on it, before any check; no error is returned. -/
theorem useInterface_nil_panics (p : Parser Δ) :
    UseInterface none p
      = .panicked p "reflect: call of reflect.Value.Type on zero Value" :=
  rfl

/-! ## Trailing input -/

/-- C8: the grammar `grammarAB` matches exactly the tokens `A B`; parsing the tokens of
`A B EXTRA` with it fails with `UnexpectedTrailing` at `EXTRA` when no parse option is
given (the default) and when `AllowTrailing(false)` is given, and succeeds when
`AllowTrailing(true)` is given. -/
theorem trailing_tolerance :
    engine.parse engine.grammarAB [⟨"Ident", "A", 0⟩, ⟨"Ident", "B", 2⟩] [] = .ok () ∧
    engine.parse engine.grammarAB engine.inputABExtra []
      = .error (.UnexpectedTrailing ⟨"Ident", "EXTRA", 4⟩) ∧
    engine.parse engine.grammarAB engine.inputABExtra [AllowTrailing false]
      = .error (.UnexpectedTrailing ⟨"Ident", "EXTRA", 4⟩) ∧
    engine.parse engine.grammarAB engine.inputABExtra [AllowTrailing true] = .ok () := by
  refine ⟨?_, ?_, ?_, ?_⟩ <;> rfl

end participle
